import Mathlib

/-!
Verification development for the pomodoro-tui repository: a shallow
embedding of the Pomodoro session engine, the radio/Spotify music
controllers and the history store, with theorems checking the
natural-language specification against the code.
-/

namespace PomodoroTui

/-! ## Session types and configuration (src: types.ts) -/

/-- `SessionType` from types.ts: `'work' | 'shortBreak' | 'longBreak'`. -/
inductive SessionType where
  | work
  | shortBreak
  | longBreak
deriving DecidableEq, Repr

/-- `PomodoroConfig` from types.ts: durations in minutes plus the cycle length. -/
structure PomodoroConfig where
  workDuration : Nat
  shortBreakDuration : Nat
  longBreakDuration : Nat
  pomodorosBeforeLongBreak : Nat
deriving DecidableEq, Repr

/-- `DEFAULT_CONFIG` from types.ts: 25/5/15 minutes, 4 pomodoros per cycle. -/
def DEFAULT_CONFIG : PomodoroConfig :=
  { workDuration := 25
    shortBreakDuration := 5
    longBreakDuration := 15
    pomodorosBeforeLongBreak := 4 }

/-- Session duration in minutes for a session type (the `getSessionDuration`
switch appearing in the TUI layers). -/
def sessionDuration (c : PomodoroConfig) : SessionType → Nat
  | .work => c.workDuration
  | .shortBreak => c.shortBreakDuration
  | .longBreak => c.longBreakDuration

/-! ## The Pomodoro engine

Modelled from the spec: the engine source file (pomodoro.ts) is not among
the repository sources; only its type declarations (types.ts) and its
callers (the TUI layers) are.  The definitions below follow spec sections
4.1 and 5: internal state is the observable snapshot plus the private
cycle counter; a transition (zero-crossing tick or `skip`) updates the
whole state first and then delivers the session-completed notification
followed by the state-changed notification, the order guaranteed in
section 5 and relied on by the in-repository caller
`PomodoroTUI.onSessionComplete`, which reads the engine state inside the
session-completed callback and branches on the *next* session's type. -/

/-- Full engine state: the four observable fields of `PomodoroState`
(types.ts) plus the private cycle counter of spec section 3. -/
structure EngineState where
  currentSession : SessionType
  timeRemaining : Nat
  isRunning : Bool
  completedPomodoros : Nat
  cycleCount : Nat
deriving DecidableEq, Repr

/-- The observable snapshot returned by `getState()` (`PomodoroState` in
types.ts): the engine state minus the private cycle counter. -/
structure Snapshot where
  currentSession : SessionType
  timeRemaining : Nat
  isRunning : Bool
  completedPomodoros : Nat
deriving DecidableEq, Repr

/-- Modelled from the spec: `getState()` returns a copy of the four
observable fields. -/
def getState (s : EngineState) : Snapshot :=
  { currentSession := s.currentSession
    timeRemaining := s.timeRemaining
    isRunning := s.isRunning
    completedPomodoros := s.completedPomodoros }

/-- Modelled from the spec: initial state after construction,
`Work` session, full work duration in seconds, paused, zero counters. -/
def initState (c : PomodoroConfig) : EngineState :=
  { currentSession := .work
    timeRemaining := c.workDuration * 60
    isRunning := false
    completedPomodoros := 0
    cycleCount := 0 }

/-- A notification delivered to a subscriber. -/
inductive EngineEvent where
  | sessionCompleted (ended : SessionType)
  | stateChanged (snap : Snapshot)
deriving DecidableEq, Repr

/-- An emission records the event together with the observable engine
state at the moment the callback runs (what `getState()` would return
inside the callback). -/
structure Emission where
  event : EngineEvent
  stateAtDelivery : Snapshot
deriving DecidableEq, Repr

/-- Modelled from the spec: `start()` — no-op when already running,
otherwise set `isRunning` and (re)establish the tick subscription. -/
def start (s : EngineState) : EngineState :=
  if s.isRunning then s else { s with isRunning := true }

/-- Modelled from the spec: `pause()` — no-op when not running, otherwise
clear `isRunning` and cancel the tick subscription, preserving
`timeRemaining` exactly. -/
def pause (s : EngineState) : EngineState :=
  if s.isRunning then { s with isRunning := false } else s

/-- Modelled from the spec: `reset()` — stop ticking and restore the
current session type's full duration, touching nothing else. -/
def reset (c : PomodoroConfig) (s : EngineState) : EngineState :=
  { s with isRunning := false
           timeRemaining := sessionDuration c s.currentSession * 60 }

/-- The session that follows the current one under the transition logic
of spec section 4.1 steps 2 and 3. -/
def nextSessionOf (c : PomodoroConfig) (s : EngineState) : SessionType :=
  match s.currentSession with
  | .work => if s.cycleCount + 1 = c.pomodorosBeforeLongBreak then .longBreak else .shortBreak
  | .shortBreak => .work
  | .longBreak => .work

/-- Modelled from the spec: the transition performed when a session
completes (zero-crossing tick or `skip`).  The ended session's counters
are applied, the next session installed with its full duration, the
engine stopped; then the session-completed notification (carrying the
ended type) is delivered, followed by the state-changed notification
with the new snapshot.  Both callbacks observe the post-transition
state. -/
def transition (c : PomodoroConfig) (s : EngineState) : EngineState × List Emission :=
  let ended := s.currentSession
  let s' : EngineState :=
    match ended with
    | .work =>
      let cyc := s.cycleCount + 1
      if cyc = c.pomodorosBeforeLongBreak then
        { currentSession := .longBreak
          timeRemaining := c.longBreakDuration * 60
          isRunning := false
          completedPomodoros := s.completedPomodoros + 1
          cycleCount := 0 }
      else
        { currentSession := .shortBreak
          timeRemaining := c.shortBreakDuration * 60
          isRunning := false
          completedPomodoros := s.completedPomodoros + 1
          cycleCount := cyc }
    | _ =>
      { s with currentSession := .work
               timeRemaining := c.workDuration * 60
               isRunning := false }
  (s', [ { event := .sessionCompleted ended, stateAtDelivery := getState s' },
         { event := .stateChanged (getState s'), stateAtDelivery := getState s' } ])

/-- Modelled from the spec: one tick while running decrements
`timeRemaining`; a strictly positive result emits a state-changed
notification, reaching zero performs the transition.  A tick never fires
while paused (the subscription is cancelled), so the paused case is the
identity with no emission. -/
def tick (c : PomodoroConfig) (s : EngineState) : EngineState × List Emission :=
  if s.isRunning then
    let t := s.timeRemaining - 1
    if 0 < t then
      let s' := { s with timeRemaining := t }
      (s', [ { event := .stateChanged (getState s'), stateAtDelivery := getState s' } ])
    else
      transition c { s with timeRemaining := 0 }
  else (s, [])

/-- Modelled from the spec: `skip()` forces the completion transition
immediately, regardless of `timeRemaining`. -/
def skip (c : PomodoroConfig) (s : EngineState) : EngineState :=
  (transition c s).1

/-- One elapsed real second: the tick callback fires only while the
subscription is live (`isRunning`); while paused, wall-clock time passes
with no effect on the engine. -/
def elapseOne (c : PomodoroConfig) (s : EngineState) : EngineState :=
  (tick c s).1

/-- `n` elapsed real seconds. -/
def elapse (c : PomodoroConfig) : Nat → EngineState → EngineState
  | 0, s => s
  | n + 1, s => elapse c n (elapseOne c s)

/-- The engine state after completing `n` sessions in a row from the
initial state. -/
def skipIter (c : PomodoroConfig) : Nat → EngineState
  | 0 => initState c
  | n + 1 => skip c (skipIter c n)

/-- The sequence of the first `n` session types visited when sessions
complete one after another from the initial state. -/
def sessionTrace (c : PomodoroConfig) (n : Nat) : List SessionType :=
  (List.range n).map fun k => (skipIter c k).currentSession

/-! ## RadioPlayer (src: music.ts, lines 39-180)

The external world is made explicit: the OS hands out a fresh process
handle on each successful spawn (`nextHandle`), and each spawn or kill
attempt may succeed or fail, which the callers pass in as oracles.
Operations return the new controller state together with the sequence of
process events (spawn/kill) they performed, in order. -/

/-- `LofiStation` from music.ts. -/
structure LofiStation where
  name : String
  url : String
deriving DecidableEq, Repr

/-- `LOFI_STATIONS` from music.ts: the fixed five-entry catalog. -/
def LOFI_STATIONS : List LofiStation :=
  [ { name := "Lofi Girl", url := "https://play.streamafrica.net/lofiradio" },
    { name := "ChillHop", url := "https://streams.fluxfm.de/Chillhop/mp3-128/streams.fluxfm.de/" },
    { name := "Box Lofi", url := "https://stream.zeno.fm/f3wvbbqmdg8uv" },
    { name := "Lofi Cafe", url := "https://stream.zeno.fm/0r0xa792kwzuv" },
    { name := "Study Beats", url := "https://stream.zeno.fm/yn65fsaurfhvv" } ]

/-- The fields of `RadioPlayer` (music.ts lines 40-43), with the OS's
next fresh process handle made explicit. -/
structure RadioState where
  process : Option Nat
  currentStationIndex : Nat
  isPlaying : Bool
  playerCommand : Option String
  nextHandle : Nat
deriving DecidableEq, Repr

/-- An external-process action performed by the controller. -/
inductive ProcEvent where
  | spawn (h : Nat)
  | kill (h : Nat)
deriving DecidableEq, Repr

/-- Result of a `play`-like operation: new state, process events in the
order performed, and the boolean returned to the caller. -/
structure RadioResult where
  state : RadioState
  events : List ProcEvent
  ok : Bool
deriving DecidableEq, Repr

/-- `RadioPlayer.play()` (music.ts lines 70-92): no player binary means
failure with untouched state; already playing returns success at once;
otherwise a spawn is attempted — on success the handle is stored and
`isPlaying` set, a thrown spawn error is caught and turned into `false`
with nothing assigned. -/
def play (spawnOk : Bool) (s : RadioState) : RadioResult :=
  match s.playerCommand with
  | none => ⟨s, [], false⟩
  | some _ =>
    if s.isPlaying then ⟨s, [], true⟩
    else if spawnOk then
      ⟨{ s with process := some s.nextHandle
                isPlaying := true
                nextHandle := s.nextHandle + 1 },
        [.spawn s.nextHandle], true⟩
    else ⟨s, [], false⟩

/-- `RadioPlayer.stop()` (music.ts lines 109-115): kill and clear the
handle when one is live, then clear `isPlaying`.  The `kill()` call is
assumed not to throw here; `stopThrowing` below models the unguarded
call. -/
def stop (s : RadioState) : RadioState × List ProcEvent :=
  match s.process with
  | some h => ({ s with process := none, isPlaying := false }, [.kill h])
  | none => ({ s with isPlaying := false }, [])

/-- `RadioPlayer.stop()` with the possibility that `process.kill()`
throws.  The source wraps no try/catch around `kill()`: a throw
propagates out of `stop()` before `process = null` or
`isPlaying = false` execute, so the error value carries the state as it
stands at the moment the exception escapes. -/
def stopThrowing (killOk : Bool) (s : RadioState) :
    Except RadioState (RadioState × List ProcEvent) :=
  match s.process with
  | some h =>
    if killOk then .ok ({ s with process := none, isPlaying := false }, [.kill h])
    else .error s
  | none => .ok ({ s with isPlaying := false }, [])

/-- `RadioPlayer.pause()` (music.ts lines 117-119) delegates to `stop()`. -/
def pauseRadio (s : RadioState) : RadioState × List ProcEvent :=
  stop s

/-- `RadioPlayer.resume()` (music.ts lines 121-123) delegates to `play()`. -/
def resume (spawnOk : Bool) (s : RadioState) : RadioResult :=
  play spawnOk s

/-- `RadioPlayer.toggle()` (music.ts lines 125-132). -/
def toggle (spawnOk : Bool) (s : RadioState) : RadioResult :=
  if s.isPlaying then
    let r := stop s
    ⟨r.1, r.2, false⟩
  else play spawnOk s

/-- `RadioPlayer.nextStation()` (music.ts lines 134-141): remember
whether playback was live, stop, advance the index modulo the catalog
length, and relaunch when it was live. -/
def nextStation (spawnOk : Bool) (s : RadioState) : RadioState × List ProcEvent :=
  let wasPlaying := s.isPlaying
  let r1 := stop s
  let s2 := { r1.1 with
    currentStationIndex := (r1.1.currentStationIndex + 1) % LOFI_STATIONS.length }
  if wasPlaying then
    let r2 := play spawnOk s2
    (r2.state, r1.2 ++ r2.events)
  else (s2, r1.2)

/-- `RadioPlayer.previousStation()` (music.ts lines 143-150), with the
source's `(i - 1 + length) % length` written over `Nat` as
`(i + length - 1) % length`. -/
def previousStation (spawnOk : Bool) (s : RadioState) : RadioState × List ProcEvent :=
  let wasPlaying := s.isPlaying
  let r1 := stop s
  let s2 := { r1.1 with
    currentStationIndex :=
      (r1.1.currentStationIndex + LOFI_STATIONS.length - 1) % LOFI_STATIONS.length }
  if wasPlaying then
    let r2 := play spawnOk s2
    (r2.state, r1.2 ++ r2.events)
  else (s2, r1.2)

/-- `RadioPlayer.setStation(index)` (music.ts lines 152-161): an
out-of-range index is ignored; otherwise stop, set, and relaunch when
playback was live. -/
def setStation (i : Nat) (spawnOk : Bool) (s : RadioState) : RadioState × List ProcEvent :=
  if i < LOFI_STATIONS.length then
    let wasPlaying := s.isPlaying
    let r1 := stop s
    let s2 := { r1.1 with currentStationIndex := i }
    if wasPlaying then
      let r2 := play spawnOk s2
      (r2.state, r1.2 ++ r2.events)
    else (s2, r1.2)
  else (s, [])

/-- `MusicManager.cleanup()` (music.ts lines 377-380) calls
`radio.stop()` (the Spotify half only cancels the poll timer). -/
def cleanup (s : RadioState) : RadioState × List ProcEvent :=
  stop s

/-- The RadioPlayer operations named by the at-most-one-process claim. -/
inductive RadioOp where
  | play (spawnOk : Bool)
  | stop
  | pause
  | resume (spawnOk : Bool)
  | toggle (spawnOk : Bool)
  | nextStation (spawnOk : Bool)
  | previousStation (spawnOk : Bool)
  | setStation (i : Nat) (spawnOk : Bool)
  | cleanup
deriving DecidableEq, Repr

/-- Dispatch one operation, keeping its state change and event trace. -/
def runOp : RadioOp → RadioState → RadioState × List ProcEvent
  | .play ok, s => let r := play ok s; (r.state, r.events)
  | .stop, s => stop s
  | .pause, s => pauseRadio s
  | .resume ok, s => let r := resume ok s; (r.state, r.events)
  | .toggle ok, s => let r := toggle ok s; (r.state, r.events)
  | .nextStation ok, s => nextStation ok s
  | .previousStation ok, s => previousStation ok s
  | .setStation i ok, s => setStation i ok s
  | .cleanup, s => cleanup s

/-- The controller/process consistency invariant: `isPlaying` holds
exactly when a process handle is stored. -/
def RadioInv (s : RadioState) : Prop :=
  s.isPlaying = s.process.isSome

instance (s : RadioState) : Decidable (RadioInv s) := by
  unfold RadioInv; infer_instance

/-- The set of handles live before an operation starts: the stored one,
if any. -/
def initLive (s : RadioState) : List Nat :=
  s.process.toList

/-- `traceOk live events` checks that, starting from the given live
handles, at every point of the event sequence at most one handle is
live and every spawn happens while none is. -/
def traceOk : List Nat → List ProcEvent → Bool
  | live, [] => live.length ≤ 1
  | live, .spawn h :: rest => live.length ≤ 1 && live.isEmpty && traceOk [h] rest
  | live, .kill h :: rest => live.length ≤ 1 && traceOk (live.erase h) rest

/-! ## SpotifyDisplay (src: music.ts, lines 189-270) -/

/-- `SpotifyTrack` from music.ts. -/
structure SpotifyTrack where
  name : String
  artist : String
  album : String
  isPlaying : Bool
deriving DecidableEq, Repr

/-- The `data.item` payload shape consumed by `getCurrentTrack`. -/
structure TrackItem where
  name : String
  artists : List String
  albumName : String
deriving DecidableEq, Repr

/-- The JSON body shape consumed by `getCurrentTrack`: `item` may be
absent, `is_playing` is a boolean. -/
structure SpotifyPayload where
  item : Option TrackItem
  is_playing : Bool
deriving DecidableEq, Repr

/-- What one `fetch` of the now-playing endpoint produced: a thrown
exception (network error — which is also how any timeout would
surface), or a response with a status code and an optional decoded
body. -/
inductive FetchOutcome where
  | throws
  | resp (status : Nat) (body : Option SpotifyPayload)
deriving DecidableEq, Repr

/-- The options object passed to `fetch` by
`SpotifyDisplay.getCurrentTrack` (music.ts lines 210-214): only an
`Authorization` header; no abort signal or timeout is installed, so
`timeoutMs` is `none`. -/
structure FetchOptions where
  headers : List (String × String)
  timeoutMs : Option Nat
deriving DecidableEq, Repr

/-- The request options `getCurrentTrack` builds for its `fetch` call. -/
def spotifyRequestOptions (token : String) : FetchOptions :=
  { headers := [("Authorization", "Bearer " ++ token)], timeoutMs := none }

/-- `SpotifyDisplay.getCurrentTrack()` (music.ts lines 204-241) as a
function of the access token, the cached track and the fetch outcome.
Returns the value handed to the caller and the new cached track.  The
cache is assigned only on the full success path; `204`, `401`,
non-2xx statuses, a missing body or item, and a thrown exception all
return `null` with the cache untouched. -/
def getCurrentTrack (token : Option String) (cached : Option SpotifyTrack)
    (outcome : FetchOutcome) : Option SpotifyTrack × Option SpotifyTrack :=
  match token with
  | none => (none, cached)
  | some _ =>
    match outcome with
    | .throws => (none, cached)
    | .resp status body =>
      if status = 204 ∨ status = 401 then (none, cached)
      else if ¬(200 ≤ status ∧ status < 300) then (none, cached)
      else
        match body with
        | none => (none, cached)
        | some p =>
          match p.item with
          | none => (none, cached)
          | some item =>
            let t : SpotifyTrack :=
              { name := item.name
                artist := String.intercalate ", " item.artists
                album := item.albumName
                isPlaying := p.is_playing }
            (some t, some t)

/-! ## HistoryManager (src: history file, `addEntry` and
`getPomodoroNumberForToday`)

The wall clock enters as explicit parameters: `nowIso` (the ISO
timestamp) and `today` (its `YYYY-MM-DD` date part), plus the generated
entry id. -/

/-- `PomodoroHistoryEntry` from types. -/
structure PomodoroHistoryEntry where
  id : String
  sessionType : SessionType
  duration : Nat
  completedAt : String
  date : String
  pomodoroNumber : Nat
deriving DecidableEq, Repr

/-- `PomodoroHistory` from types. -/
structure PomodoroHistory where
  entries : List PomodoroHistoryEntry
  totalPomodoros : Nat
  lastUpdated : String
deriving DecidableEq, Repr

/-- The filter predicate of `getPomodoroNumberForToday` and
`getTodayStats`: entries of the given calendar day whose session type is
`work`. -/
def isTodayWork (today : String) (e : PomodoroHistoryEntry) : Bool :=
  e.date = today && e.sessionType = .work

/-- `HistoryManager.getPomodoroNumberForToday()`: one more than the
count of this day's work entries already stored. -/
def getPomodoroNumberForToday (today : String) (h : PomodoroHistory) : Nat :=
  (h.entries.filter (isTodayWork today)).length + 1

/-- `HistoryManager.addEntry(sessionType, duration)`: build the entry
(work entries get the day ordinal, breaks get 0), append it, bump
`totalPomodoros` on work, refresh `lastUpdated`.  Returns the new
history and the entry. -/
def addEntry (nowIso today id : String) (sessionType : SessionType) (duration : Nat)
    (h : PomodoroHistory) : PomodoroHistory × PomodoroHistoryEntry :=
  let entry : PomodoroHistoryEntry :=
    { id := id
      sessionType := sessionType
      duration := duration
      completedAt := nowIso
      date := today
      pomodoroNumber :=
        if sessionType = .work then getPomodoroNumberForToday today h else 0 }
  ({ entries := h.entries ++ [entry]
     totalPomodoros :=
       if sessionType = .work then h.totalPomodoros + 1 else h.totalPomodoros
     lastUpdated := nowIso },
   entry)

/-- A two-pomodoro cycle configuration, for the example trace. -/
def cfgTwoCycle : PomodoroConfig :=
  { DEFAULT_CONFIG with pomodorosBeforeLongBreak := 2 }

/-! ## Engine lemmas -/

theorem pause_eq (s : EngineState) : pause s = { s with isRunning := false } := by
  cases s with
  | mk cs tr ir cp cc => cases ir <;> simp [pause]

theorem start_eq (s : EngineState) : start s = { s with isRunning := true } := by
  cases s with
  | mk cs tr ir cp cc => cases ir <;> simp [start]

theorem elapseOne_not_running (c : PomodoroConfig) (s : EngineState)
    (h : s.isRunning = false) : elapseOne c s = s := by
  simp [elapseOne, tick, h]

theorem elapse_not_running (c : PomodoroConfig) (n : Nat) (s : EngineState)
    (h : s.isRunning = false) : elapse c n s = s := by
  induction n with
  | zero => rfl
  | succ m ih => simp [elapse, elapseOne_not_running c s h, ih]

/-- C1: for every engine state (hence every reachable one), `pause()`
clears `isRunning` and leaves `timeRemaining`, `currentSession` and
`completedPomodoros` unchanged; any number of elapsed real seconds
while paused changes nothing (the tick subscription is cancelled); and
a later `start()` resumes running from exactly the paused
`timeRemaining`, session and count. -/
theorem pause_then_start_no_drift (c : PomodoroConfig) (s : EngineState) (n : Nat) :
    (pause s).isRunning = false ∧
    (pause s).timeRemaining = s.timeRemaining ∧
    (pause s).currentSession = s.currentSession ∧
    (pause s).completedPomodoros = s.completedPomodoros ∧
    elapse c n (pause s) = pause s ∧
    (start (elapse c n (pause s))).isRunning = true ∧
    (start (elapse c n (pause s))).timeRemaining = s.timeRemaining ∧
    (start (elapse c n (pause s))).currentSession = s.currentSession ∧
    (start (elapse c n (pause s))).completedPomodoros = s.completedPomodoros := by
  have hp : pause s = { s with isRunning := false } := pause_eq s
  have he : elapse c n { s with isRunning := false } = { s with isRunning := false } :=
    elapse_not_running c n _ rfl
  simp [hp, he, start_eq]

/-- C2: completing a Work session (via the zero-crossing tick or via
`skip`, both of which perform the same transition) increments
`completedPomodoros` and the cycle counter; when the counter reaches
`pomodorosBeforeLongBreak` the next session is LongBreak and the counter
resets to 0, else ShortBreak; completing a break always yields Work;
and with `pomodorosBeforeLongBreak = 2` the session sequence runs
Work, ShortBreak, Work, LongBreak, Work, ShortBreak. -/
theorem work_break_cycle_correct :
    (∀ (c : PomodoroConfig) (s : EngineState), s.currentSession = .work →
      (transition c s).1.completedPomodoros = s.completedPomodoros + 1 ∧
      (if s.cycleCount + 1 = c.pomodorosBeforeLongBreak then
        (transition c s).1.currentSession = .longBreak ∧ (transition c s).1.cycleCount = 0
      else
        (transition c s).1.currentSession = .shortBreak ∧
        (transition c s).1.cycleCount = s.cycleCount + 1)) ∧
    (∀ (c : PomodoroConfig) (s : EngineState), s.currentSession ≠ .work →
      (transition c s).1.currentSession = .work ∧
      (transition c s).1.completedPomodoros = s.completedPomodoros) ∧
    (∀ (c : PomodoroConfig) (s : EngineState), s.isRunning = true → s.timeRemaining = 1 →
      tick c s = transition c { s with timeRemaining := 0 }) ∧
    (∀ (c : PomodoroConfig) (s : EngineState), skip c s = (transition c s).1) ∧
    sessionTrace cfgTwoCycle 6 =
      [.work, .shortBreak, .work, .longBreak, .work, .shortBreak] := by
  refine ⟨?_, ?_, ?_, fun _ _ => rfl, by decide⟩
  · intro c s hw
    unfold transition
    rw [hw]
    split <;> simp_all
  · intro c s hw
    unfold transition
    cases h : s.currentSession <;> simp_all
  · intro c s hrun ht
    simp [tick, hrun, ht]

/-- C2 witness: the transition facts at concrete states under the
two-pomodoro-cycle configuration. -/
theorem work_break_cycle_correct_witness :
    (transition cfgTwoCycle ⟨.work, 0, false, 0, 0⟩).1.completedPomodoros = 0 + 1 ∧
    (transition cfgTwoCycle ⟨.shortBreak, 0, false, 1, 1⟩).1.currentSession = .work ∧
    tick cfgTwoCycle ⟨.work, 1, true, 0, 0⟩ =
      transition cfgTwoCycle ⟨.work, 0, true, 0, 0⟩ := by
  obtain ⟨h1, h2, h3, _, _⟩ := work_break_cycle_correct
  exact ⟨(h1 cfgTwoCycle ⟨.work, 0, false, 0, 0⟩ rfl).1,
         (h2 cfgTwoCycle ⟨.shortBreak, 0, false, 1, 1⟩ (by decide)).1,
         h3 cfgTwoCycle ⟨.work, 1, true, 0, 0⟩ rfl rfl⟩

theorem transition_events (c : PomodoroConfig) (s : EngineState) :
    transition c s =
      ((transition c s).1,
       [{ event := .sessionCompleted s.currentSession,
          stateAtDelivery := getState (transition c s).1 },
        { event := .stateChanged (getState (transition c s).1),
          stateAtDelivery := getState (transition c s).1 }]) := by
  cases s with
  | mk cs tr ir cp cc =>
    cases cs <;> rfl

theorem transition_next (c : PomodoroConfig) (s : EngineState) :
    (transition c s).1.currentSession = nextSessionOf c s := by
  cases s with
  | mk cs tr ir cp cc =>
    cases cs <;>
      first
      | rfl
      | (simp only [transition, nextSessionOf]; split <;> rfl)

theorem nextSessionOf_time_irrel (c : PomodoroConfig) (s : EngineState) (t : Nat) :
    nextSessionOf c { s with timeRemaining := t } = nextSessionOf c s := by
  cases s; rfl

/-- C7: on a natural completion (tick crossing zero), the engine emits
exactly the session-completed notification carrying the ended session's
type, strictly followed by the state-changed notification with the new
snapshot; both callbacks observe the post-transition state, so reading
the engine state inside the session-completed callback already shows
the next session's type. -/
theorem completion_notification_order (c : PomodoroConfig) (s : EngineState)
    (hrun : s.isRunning = true) (ht : s.timeRemaining = 1) :
    tick c s =
      ((tick c s).1,
       [{ event := .sessionCompleted s.currentSession,
          stateAtDelivery := getState (tick c s).1 },
        { event := .stateChanged (getState (tick c s).1),
          stateAtDelivery := getState (tick c s).1 }]) ∧
    (getState (tick c s).1).currentSession = nextSessionOf c s := by
  have hts : tick c s = transition c { s with timeRemaining := 0 } := by
    simp [tick, hrun, ht]
  constructor
  · rw [hts]
    simpa using transition_events c { s with timeRemaining := 0 }
  · rw [hts]
    show (transition c { s with timeRemaining := 0 }).1.currentSession = nextSessionOf c s
    rw [transition_next, nextSessionOf_time_irrel]

/-- C7 witness: the notification order at a concrete completing tick. -/
theorem completion_notification_order_witness :
    tick cfgTwoCycle ⟨.work, 1, true, 0, 0⟩ =
      ((tick cfgTwoCycle ⟨.work, 1, true, 0, 0⟩).1,
       [{ event := .sessionCompleted SessionType.work,
          stateAtDelivery := getState (tick cfgTwoCycle ⟨.work, 1, true, 0, 0⟩).1 },
        { event := .stateChanged (getState (tick cfgTwoCycle ⟨.work, 1, true, 0, 0⟩).1),
          stateAtDelivery := getState (tick cfgTwoCycle ⟨.work, 1, true, 0, 0⟩).1 }]) ∧
    (getState (tick cfgTwoCycle ⟨.work, 1, true, 0, 0⟩).1).currentSession =
      nextSessionOf cfgTwoCycle ⟨.work, 1, true, 0, 0⟩ :=
  completion_notification_order cfgTwoCycle ⟨.work, 1, true, 0, 0⟩ rfl rfl

/-! ## RadioPlayer theorems -/

/-- C3: every RadioPlayer operation, run from a state where `isPlaying`
agrees with the stored handle, preserves that agreement (so `process`
is null whenever nothing is playing), and its external-process event
trace keeps at most one live handle at every point — in particular no
spawn happens while a previous handle is still live. -/
theorem radio_at_most_one_process (op : RadioOp) (s : RadioState) (h : RadioInv s) :
    RadioInv (runOp op s).1 ∧
    ((runOp op s).1.isPlaying = false → (runOp op s).1.process = none) ∧
    traceOk (initLive s) (runOp op s).2 = true := by
  obtain ⟨proc, idx, playing, cmd, nh⟩ := s
  unfold RadioInv at h
  simp only at h
  cases op with
  | play ok =>
    cases proc <;> cases playing <;> simp at h <;>
      cases cmd <;> cases ok <;>
      simp [runOp, play, RadioInv, initLive, traceOk]
  | stop =>
    cases proc <;> cases playing <;> simp at h <;>
      simp [runOp, stop, RadioInv, initLive, traceOk]
  | pause =>
    cases proc <;> cases playing <;> simp at h <;>
      simp [runOp, pauseRadio, stop, RadioInv, initLive, traceOk]
  | resume ok =>
    cases proc <;> cases playing <;> simp at h <;>
      cases cmd <;> cases ok <;>
      simp [runOp, resume, play, RadioInv, initLive, traceOk]
  | toggle ok =>
    cases proc <;> cases playing <;> simp at h <;>
      cases cmd <;> cases ok <;>
      simp [runOp, toggle, play, stop, RadioInv, initLive, traceOk]
  | nextStation ok =>
    cases proc <;> cases playing <;> simp at h <;>
      cases cmd <;> cases ok <;>
      simp [runOp, nextStation, play, stop, RadioInv, initLive, traceOk]
  | previousStation ok =>
    cases proc <;> cases playing <;> simp at h <;>
      cases cmd <;> cases ok <;>
      simp [runOp, previousStation, play, stop, RadioInv, initLive, traceOk]
  | setStation i ok =>
    cases proc <;> cases playing <;> simp at h <;>
      cases cmd <;> cases ok <;>
      by_cases hi : i < LOFI_STATIONS.length <;>
      simp [runOp, setStation, play, stop, RadioInv, initLive, traceOk, hi]
  | cleanup =>
    cases proc <;> cases playing <;> simp at h <;>
      simp [runOp, cleanup, stop, RadioInv, initLive, traceOk]

/-- C3 witness: the invariant and trace check at a concrete idle state
under a successful `play`. -/
theorem radio_at_most_one_process_witness :
    RadioInv ⟨none, 0, false, some "mpv", 0⟩ ∧
    (RadioInv (runOp (.play true) ⟨none, 0, false, some "mpv", 0⟩).1 ∧
     ((runOp (.play true) ⟨none, 0, false, some "mpv", 0⟩).1.isPlaying = false →
       (runOp (.play true) ⟨none, 0, false, some "mpv", 0⟩).1.process = none) ∧
     traceOk (initLive ⟨none, 0, false, some "mpv", 0⟩)
       (runOp (.play true) ⟨none, 0, false, some "mpv", 0⟩).2 = true) :=
  ⟨by decide, radio_at_most_one_process (.play true) _ (by decide)⟩

/-- C4: when no player binary was found at construction
(`playerCommand` is null), `play()` returns false, performs no process
action, and leaves the whole state unchanged. -/
theorem play_without_player (s : RadioState) (ok : Bool)
    (h : s.playerCommand = none) : play ok s = ⟨s, [], false⟩ := by
  simp [play, h]

/-- C4 witness: `play` at a concrete player-less state. -/
theorem play_without_player_witness :
    (⟨none, 2, false, none, 0⟩ : RadioState).playerCommand = none ∧
    play true ⟨none, 2, false, none, 0⟩ = ⟨⟨none, 2, false, none, 0⟩, [], false⟩ :=
  ⟨rfl, play_without_player _ true rfl⟩

/-- C5 counterexample: `stop()` wraps no try/catch around
`process.kill()`, so at a state with a live process a kill error
escapes as an exception (never becoming a boolean result), and at the
moment it escapes the handle is still stored and `isPlaying` is still
true — a dangling handle. -/
theorem stop_kill_error_uncaught :
    stopThrowing false ⟨some 0, 0, true, some "mpv", 1⟩ =
      Except.error ⟨some 0, 0, true, some "mpv", 1⟩ ∧
    (⟨some 0, 0, true, some "mpv", 1⟩ : RadioState).process = some 0 ∧
    (⟨some 0, 0, true, some "mpv", 1⟩ : RadioState).isPlaying = true :=
  ⟨rfl, rfl, rfl⟩

/-- C5 amended: spawn failures in `play()` are caught and converted to
a boolean false with the state untouched; a non-throwing kill leaves
the controller consistent with no handle; but a kill error in `stop()`
is not caught — it propagates as an exception with the handle still
set. -/
theorem process_failure_handling :
    (∀ s : RadioState, s.isPlaying = false → play false s = ⟨s, [], false⟩) ∧
    (∀ s : RadioState, RadioInv s →
      RadioInv (stop s).1 ∧ (stop s).1.process = none ∧ (stop s).1.isPlaying = false) ∧
    (∀ (s : RadioState) (p : Nat), s.process = some p →
      stopThrowing false s = Except.error s) := by
  refine ⟨?_, ?_, ?_⟩
  · intro s hs
    obtain ⟨proc, idx, playing, cmd, nh⟩ := s
    simp only at hs
    cases cmd <;> simp [play, hs]
  · intro s hinv
    obtain ⟨proc, idx, playing, cmd, nh⟩ := s
    unfold RadioInv at hinv ⊢
    cases proc <;> simp_all [stop]
  · intro s p hp
    obtain ⟨proc, idx, playing, cmd, nh⟩ := s
    simp only at hp
    simp [stopThrowing, hp]

/-- C5 witness: the three failure-handling facts at concrete states. -/
theorem process_failure_handling_witness :
    play false ⟨none, 0, false, some "mpv", 0⟩ =
      ⟨⟨none, 0, false, some "mpv", 0⟩, [], false⟩ ∧
    (stop ⟨some 3, 1, true, some "mpv", 4⟩).1.process = none ∧
    stopThrowing false ⟨some 3, 1, true, some "mpv", 4⟩ =
      Except.error ⟨some 3, 1, true, some "mpv", 4⟩ := by
  obtain ⟨h1, h2, h3⟩ := process_failure_handling
  exact ⟨h1 _ rfl, (h2 _ (by decide)).2.1, h3 _ 3 rfl⟩

theorem nextStation_index (ok : Bool) (s : RadioState) :
    (nextStation ok s).1.currentStationIndex
      = (s.currentStationIndex + 1) % LOFI_STATIONS.length := by
  obtain ⟨proc, idx, playing, cmd, nh⟩ := s
  cases playing <;> cases proc <;> cases cmd <;> cases ok <;>
    simp [nextStation, stop, play]

theorem previousStation_index (ok : Bool) (s : RadioState) :
    (previousStation ok s).1.currentStationIndex
      = (s.currentStationIndex + LOFI_STATIONS.length - 1) % LOFI_STATIONS.length := by
  obtain ⟨proc, idx, playing, cmd, nh⟩ := s
  cases playing <;> cases proc <;> cases cmd <;> cases ok <;>
    simp [previousStation, stop, play]

/-- Repeated `nextStation` calls, one oracle per call. -/
def applyNextStations (oks : List Bool) (s : RadioState) : RadioState :=
  oks.foldl (fun t ok => (nextStation ok t).1) s

theorem applyNextStations_index (oks : List Bool) (s : RadioState)
    (hs : s.currentStationIndex < LOFI_STATIONS.length) :
    (applyNextStations oks s).currentStationIndex
      = (s.currentStationIndex + oks.length) % LOFI_STATIONS.length := by
  induction oks generalizing s with
  | nil => simpa [applyNextStations] using (Nat.mod_eq_of_lt hs).symm
  | cons ok oks ih =>
    have h1 := nextStation_index ok s
    have hlt : (nextStation ok s).1.currentStationIndex < LOFI_STATIONS.length := by
      rw [h1]; exact Nat.mod_lt _ (by decide)
    have h2 := ih (nextStation ok s).1 hlt
    show (applyNextStations oks (nextStation ok s).1).currentStationIndex = _
    rw [h2, h1]
    have L : LOFI_STATIONS.length = 5 := rfl
    rw [L]
    simp only [List.length_cons]
    omega

/-- C8: `nextStation` advances the selected index by one modulo the
catalog length, `previousStation` retreats it by one modulo the catalog
length, and performing `nextStation` exactly `totalStations` times
returns the selection to the original index. -/
theorem station_index_modulo :
    (∀ (ok : Bool) (s : RadioState),
      (nextStation ok s).1.currentStationIndex
        = (s.currentStationIndex + 1) % LOFI_STATIONS.length) ∧
    (∀ (ok : Bool) (s : RadioState),
      (previousStation ok s).1.currentStationIndex
        = (s.currentStationIndex + LOFI_STATIONS.length - 1) % LOFI_STATIONS.length) ∧
    (∀ (oks : List Bool) (s : RadioState),
      oks.length = LOFI_STATIONS.length →
      s.currentStationIndex < LOFI_STATIONS.length →
      (applyNextStations oks s).currentStationIndex = s.currentStationIndex) := by
  refine ⟨nextStation_index, previousStation_index, ?_⟩
  intro oks s hlen hidx
  rw [applyNextStations_index oks s hidx, hlen]
  have L : LOFI_STATIONS.length = 5 := rfl
  rw [L] at hidx ⊢
  omega

/-- C8 witness: five `nextStation` calls from station 2 return to
station 2. -/
theorem station_index_modulo_witness :
    (applyNextStations [true, false, true, false, true]
        ⟨none, 2, false, some "mpv", 0⟩).currentStationIndex = 2 :=
  station_index_modulo.2.2 [true, false, true, false, true]
    ⟨none, 2, false, some "mpv", 0⟩ rfl (by decide)

/-! ## History theorems -/

/-- C9: the entry `addEntry` records for a work session carries as
`pomodoroNumber` its 1-based ordinal among the work entries of the same
calendar day — one more than the count already stored, equivalently its
position at the end of the day's filtered work-entry sequence — and a
non-work entry records `pomodoroNumber = 0`. -/
theorem addEntry_pomodoro_number (nowIso today id : String) (dur : Nat)
    (h : PomodoroHistory) :
    ((addEntry nowIso today id .work dur h).1.entries.filter (isTodayWork today)
        = h.entries.filter (isTodayWork today)
            ++ [(addEntry nowIso today id .work dur h).2]) ∧
    (addEntry nowIso today id .work dur h).2.pomodoroNumber
        = (h.entries.filter (isTodayWork today)).length + 1 ∧
    (addEntry nowIso today id .work dur h).2.pomodoroNumber
        = ((addEntry nowIso today id .work dur h).1.entries.filter
            (isTodayWork today)).length ∧
    (∀ st : SessionType, st ≠ .work →
      (addEntry nowIso today id st dur h).2.pomodoroNumber = 0) := by
  refine ⟨?_, ?_, ?_, ?_⟩
  · simp [addEntry, isTodayWork, List.filter_append]
  · simp [addEntry, getPomodoroNumberForToday]
  · simp [addEntry, getPomodoroNumberForToday, isTodayWork, List.filter_append]
  · intro st hst
    cases st <;> simp_all [addEntry]

/-- C9 witness: the recorded ordinal on an empty history plus the zero
for a break entry. -/
theorem addEntry_pomodoro_number_witness :
    (addEntry "t" "d" "i" .work 25 ⟨[], 0, "u"⟩).2.pomodoroNumber = 0 + 1 ∧
    (addEntry "t" "d" "i" .shortBreak 5 ⟨[], 0, "u"⟩).2.pomodoroNumber = 0 :=
  ⟨(addEntry_pomodoro_number "t" "d" "i" 25 ⟨[], 0, "u"⟩).2.1,
   (addEntry_pomodoro_number "t" "d" "i" 5 ⟨[], 0, "u"⟩).2.2.2 .shortBreak (by decide)⟩

/-- C10: `addEntry` bumps the stored `totalPomodoros` by exactly one
precisely for a work entry and leaves it unchanged for breaks, always
appends exactly the one new entry, and sets `lastUpdated` to the
current timestamp. -/
theorem addEntry_counters (nowIso today id : String) (st : SessionType)
    (dur : Nat) (h : PomodoroHistory) :
    (addEntry nowIso today id st dur h).1.totalPomodoros
        = h.totalPomodoros + (if st = .work then 1 else 0) ∧
    (addEntry nowIso today id st dur h).1.entries
        = h.entries ++ [(addEntry nowIso today id st dur h).2] ∧
    (addEntry nowIso today id st dur h).1.lastUpdated = nowIso := by
  cases st <;> simp [addEntry]

/-! ## Spotify poll theorems -/

/-- C6 counterexample: the now-playing fetch is issued with an options
object holding only the Authorization header — no abort signal and no
timeout is installed, so the request carries no bounded timeout. -/
theorem spotify_poll_has_no_timeout :
    (spotifyRequestOptions "token").timeoutMs = none :=
  rfl

/-- C6 amended: the poll's request carries no bounded timeout; every
poll failure — a thrown exception (which is how any network timeout
would surface), status 204 or 401, a non-2xx status, a missing payload,
or a payload without an item — returns null and leaves the cached
currently-playing track unchanged; in general, whenever the poll does
not return a track the cache is untouched. -/
theorem spotify_poll_failure_preserves_cache (token : String)
    (cached : Option SpotifyTrack) :
    getCurrentTrack (some token) cached .throws = (none, cached) ∧
    (∀ (status : Nat) (body : Option SpotifyPayload), status = 204 ∨ status = 401 →
      getCurrentTrack (some token) cached (.resp status body) = (none, cached)) ∧
    (∀ (status : Nat) (body : Option SpotifyPayload),
      ¬(200 ≤ status ∧ status < 300) →
      getCurrentTrack (some token) cached (.resp status body) = (none, cached)) ∧
    (∀ status : Nat,
      getCurrentTrack (some token) cached (.resp status none) = (none, cached)) ∧
    (∀ (status : Nat) (p : SpotifyPayload), p.item = none →
      getCurrentTrack (some token) cached (.resp status (some p)) = (none, cached)) ∧
    (∀ outcome : FetchOutcome,
      (getCurrentTrack (some token) cached outcome).1 = none →
      (getCurrentTrack (some token) cached outcome).2 = cached) ∧
    (spotifyRequestOptions token).timeoutMs = none := by
  refine ⟨rfl, ?_, ?_, ?_, ?_, ?_, rfl⟩
  · intro status body h1
    simp [getCurrentTrack, h1]
  · intro status body h2
    by_cases h1 : status = 204 ∨ status = 401
    · simp [getCurrentTrack, h1]
    · simp [getCurrentTrack, h1, h2]
  · intro status
    by_cases h1 : status = 204 ∨ status = 401
    · simp [getCurrentTrack, h1]
    · by_cases h2 : 200 ≤ status ∧ status < 300
      · simp [getCurrentTrack, h1, h2]
      · simp [getCurrentTrack, h1, h2]
  · intro status p hp
    by_cases h1 : status = 204 ∨ status = 401
    · simp [getCurrentTrack, h1]
    · by_cases h2 : 200 ≤ status ∧ status < 300
      · simp [getCurrentTrack, h1, h2, hp]
      · simp [getCurrentTrack, h1, h2]
  · intro outcome hnone
    cases outcome with
    | throws => rfl
    | resp status body =>
      by_cases h1 : status = 204 ∨ status = 401
      · simp [getCurrentTrack, h1]
      · by_cases h2 : 200 ≤ status ∧ status < 300
        · cases body with
          | none => simp [getCurrentTrack, h1, h2]
          | some p =>
            cases hp : p.item with
            | none => simp [getCurrentTrack, h1, h2, hp]
            | some item =>
              exfalso
              simp [getCurrentTrack, h1, h2, hp] at hnone
        · simp [getCurrentTrack, h1, h2]

/-- C6 witness: failure outcomes at concrete inputs leave concrete
caches unchanged. -/
theorem spotify_poll_failure_preserves_cache_witness :
    getCurrentTrack (some "tok") (some ⟨"n", "a", "b", true⟩) .throws
      = (none, some ⟨"n", "a", "b", true⟩) ∧
    getCurrentTrack (some "tok") (some ⟨"n", "a", "b", true⟩) (.resp 204 none)
      = (none, some ⟨"n", "a", "b", true⟩) ∧
    getCurrentTrack (some "tok") (some ⟨"n", "a", "b", true⟩) (.resp 500 none)
      = (none, some ⟨"n", "a", "b", true⟩) := by
  have h := spotify_poll_failure_preserves_cache "tok" (some ⟨"n", "a", "b", true⟩)
  exact ⟨h.1, h.2.1 204 none (Or.inl rfl), h.2.2.1 500 none (by omega)⟩

end PomodoroTui
